import Mathlib

/-!
Verification development for the PHINEAS collection-pipeline core:
a shallow embedding of `src/core/result_aggregator.py` (class
`ResultAggregator`) and of the per-step execution loop plus summary
generation of `src/core/orchestrator.py` (class `PhineasOrchestrator`),
together with theorems settling the specified properties.

Python dictionaries with a fixed key vocabulary are embedded as
structures of `Option` fields (a `none` field = key absent); generic
dictionaries are embedded as association lists in insertion order;
Python sets are `Finset String`.  Console rendering, logging, progress
bars, timestamps and file I/O of the source are side channels with no
influence on the data flow and are not modelled.
-/

namespace Phineas

/-- Python `str.lower()` applied characterwise (the source only ever
lowercases ASCII identifiers such as e-mail addresses and domains). -/
def pyLower (s : String) : String := ⟨s.data.map Char.toLower⟩

/-- Python `str.strip()`: remove leading and trailing whitespace. -/
def pyStrip (s : String) : String :=
  ⟨((s.data.dropWhile Char.isWhitespace).reverse.dropWhile Char.isWhitespace).reverse⟩

/-- A structured finding record (a Python dict appearing in the
`social_profiles`, `accounts` or `breaches` lists); the fields are the
keys the aggregator reads or writes (`platform`, `url`, `username`,
`account`, `email`, `source`), each optional as in a dict. -/
structure SRecord where
  platform : Option String
  url : Option String
  username : Option String
  account : Option String
  email : Option String
  source : Option String
deriving DecidableEq

/-- A scalar findings entry: the source accepts a single string or a
list of strings (`findings['emails'] if isinstance(..., list) else [...]`). -/
inductive SVal where
  | one (v : String)
  | many (vs : List String)
deriving DecidableEq

/-- A structured findings entry: a single record or a list of records. -/
inductive RVal where
  | one (r : SRecord)
  | many (rs : List SRecord)
deriving DecidableEq

/-- An element of an `accounts` findings entry: a dict or a bare string. -/
inductive AEntry where
  | record (r : SRecord)
  | str (s : String)
deriving DecidableEq

/-- An `accounts` findings entry: a single element or a list. -/
inductive AVal where
  | one (a : AEntry)
  | many (l : List AEntry)
deriving DecidableEq

/-- The `findings` dict of a plugin result, with the nine keys
`add_result` recognizes; a `none` field models an absent key. -/
structure Findings where
  emails : Option SVal
  usernames : Option SVal
  domains : Option SVal
  subdomains : Option SVal
  phone_numbers : Option SVal
  urls : Option SVal
  social_profiles : Option RVal
  accounts : Option AVal
  breaches : Option RVal
deriving DecidableEq

/-- The empty findings dict (`result.get('findings', {})` default). -/
def noFindings : Findings := ⟨none, none, none, none, none, none, none, none, none⟩

/-- A plugin result dict as consumed by the aggregator: `status`,
optional `error`, optional `findings`. -/
structure PluginResult where
  status : String
  error : Option String
  findings : Option Findings
deriving DecidableEq

/-- The list of scalar values an entry denotes: absent key contributes
nothing, a single value becomes a one-element list. -/
def valsOf : Option SVal → List String
  | none => []
  | some (.one v) => [v]
  | some (.many vs) => vs

/-- The list of records a structured entry denotes. -/
def recsOf : Option RVal → List SRecord
  | none => []
  | some (.one r) => [r]
  | some (.many rs) => rs

/-- The list of elements an `accounts` entry denotes. -/
def aentsOf : Option AVal → List AEntry
  | none => []
  | some (.one a) => [a]
  | some (.many l) => l

/-- `record['source'] = plugin_name`: stamp the source field. -/
def setSource (p : String) (r : SRecord) : SRecord :=
  ⟨r.platform, r.url, r.username, r.account, r.email, some p⟩

/-- The record an `accounts` element contributes to the aggregated
list: a dict is stamped; a bare string becomes
`{'platform': 'unknown', 'account': s, 'source': plugin}`. -/
def accountRecord (p : String) : AEntry → SRecord
  | .record r => setSource p r
  | .str s => ⟨some "unknown", none, none, some s, none, some p⟩

/-- Effect of `add_result` on an `accounts` element of the input
findings: dict elements are stamped in place, bare strings untouched. -/
def stampAEntry (p : String) : AEntry → AEntry
  | .record r => .record (setSource p r)
  | .str s => .str s

/-- Map a record transformation over a structured findings entry. -/
def mapRVal (f : SRecord → SRecord) : Option RVal → Option RVal
  | none => none
  | some (.one r) => some (.one (f r))
  | some (.many rs) => some (.many (rs.map f))

/-- Map an element transformation over an `accounts` findings entry. -/
def mapAVal (f : AEntry → AEntry) : Option AVal → Option AVal
  | none => none
  | some (.one a) => some (.one (f a))
  | some (.many l) => some (.many (l.map f))

/-- In-place mutation `add_result` performs on the findings dict it was
handed: every structured dict record gains `source := plugin`; scalar
entries are untouched (strings are immutable). -/
def mutateFindings (p : String) (f : Findings) : Findings :=
  ⟨f.emails, f.usernames, f.domains, f.subdomains, f.phone_numbers, f.urls,
   mapRVal (setSource p) f.social_profiles,
   mapAVal (stampAEntry p) f.accounts,
   mapRVal (setSource p) f.breaches⟩

/-- The state of the input result dict after `add_result` returns
(Python mutates the inner record dicts through shared references). -/
def mutateResult (p : String) (r : PluginResult) : PluginResult :=
  ⟨r.status, r.error, r.findings.map (mutateFindings p)⟩

/-- `ResultAggregator` state: `raw_results`, the per-kind scalar sets
and structured lists of `self.aggregated`, and `self.sources` as the
(key, plugin) append sequence of a `defaultdict(list)`. -/
structure AggState where
  raw_results : List (String × PluginResult)
  emails : Finset String
  usernames : Finset String
  domains : Finset String
  subdomains : Finset String
  phone_numbers : Finset String
  urls : Finset String
  social_profiles : List SRecord
  accounts : List SRecord
  breaches : List SRecord
  sources : List (String × String)

/-- `ResultAggregator.__init__`. -/
def initState : AggState := ⟨[], ∅, ∅, ∅, ∅, ∅, ∅, [], [], [], []⟩

/-- `ResultAggregator.add_result(plugin_name, result)`.  Returns the new
aggregator state together with the (mutated) input result.  Per kind:
scalar values are inserted into the kind's set after normalization
(`lower().strip()` for emails, domains and subdomains; `strip()` for
usernames, phone numbers and urls), and — for every scalar kind except
urls — `(prefix + ':' + raw value, plugin)` is appended to `sources`;
structured records are stamped with `source` and appended. -/
def add_result (st : AggState) (plugin : String) (result : PluginResult) :
    AggState × PluginResult :=
  let f := result.findings.getD noFindings
  let result' := mutateResult plugin result
  ⟨⟨st.raw_results ++ [(plugin, result')],
    st.emails ∪ ((valsOf f.emails).map (fun v => pyStrip (pyLower v))).toFinset,
    st.usernames ∪ ((valsOf f.usernames).map pyStrip).toFinset,
    st.domains ∪ ((valsOf f.domains).map (fun v => pyStrip (pyLower v))).toFinset,
    st.subdomains ∪ ((valsOf f.subdomains).map (fun v => pyStrip (pyLower v))).toFinset,
    st.phone_numbers ∪ ((valsOf f.phone_numbers).map pyStrip).toFinset,
    st.urls ∪ ((valsOf f.urls).map pyStrip).toFinset,
    st.social_profiles ++ (recsOf f.social_profiles).map (setSource plugin),
    st.accounts ++ (aentsOf f.accounts).map (accountRecord plugin),
    st.breaches ++ (recsOf f.breaches).map (setSource plugin),
    st.sources
      ++ (valsOf f.emails).map (fun v => ("email:" ++ v, plugin))
      ++ (valsOf f.usernames).map (fun v => ("username:" ++ v, plugin))
      ++ (valsOf f.domains).map (fun v => ("domain:" ++ v, plugin))
      ++ (valsOf f.subdomains).map (fun v => ("subdomain:" ++ v, plugin))
      ++ (valsOf f.phone_numbers).map (fun v => ("phone:" ++ v, plugin))⟩,
   result'⟩

/-- One aggregation step over a (plugin, result) pair. -/
def stepAgg (st : AggState) (pr : String × PluginResult) : AggState :=
  (add_result st pr.1 pr.2).1

/-- Feed a list of (plugin, result) pairs into a fresh aggregator. -/
def runAgg (l : List (String × PluginResult)) : AggState :=
  l.foldl stepAgg initState

/-- `self.sources[k]`: the plugin names appended under key `k`, in
append order (empty list when the key was never created). -/
def sourcesAt (st : AggState) (k : String) : List String :=
  (st.sources.filter (fun p => p.1 == k)).map (fun p => p.2)

/-- The three-tier score of `_calculate_confidence` as a function of
the distinct-source count. -/
def score (n : Nat) : Nat :=
  if 3 ≤ n then 100 else if n = 2 then 75 else 50

/-- `len(set(sources))` for a key. -/
def distinctSources (st : AggState) (k : String) : Nat :=
  (sourcesAt st k).dedup.length

/-- `_calculate_confidence()[k]`: present exactly for the keys of
`self.sources`, with the three-tier score of the distinct count. -/
def confidenceAt (st : AggState) (k : String) : Option Nat :=
  if sourcesAt st k = [] then none else some (score (distinctSources st k))

/-- The shared loop of `_deduplicate_profiles` / `_deduplicate_accounts`:
keep each record whose key is not in `seen`, extending `seen`. -/
def dedupByKey (key : SRecord → String) : Finset String → List SRecord → List SRecord
  | _, [] => []
  | seen, r :: rs =>
    if key r ∈ seen then dedupByKey key seen rs
    else r :: dedupByKey key (insert (key r) seen) rs

/-- `f"{profile.get('platform', 'unknown')}:{profile.get('url', profile.get('username', ''))}"`. -/
def profileKey (r : SRecord) : String :=
  (r.platform.getD "unknown") ++ ":" ++ (r.url.getD (r.username.getD ""))

/-- `f"{account.get('platform', 'unknown')}:{account.get('account', account.get('email', ''))}"`. -/
def accountKey (r : SRecord) : String :=
  (r.platform.getD "unknown") ++ ":" ++ (r.account.getD (r.email.getD ""))

/-- `ResultAggregator._deduplicate_profiles`. -/
def deduplicate_profiles (l : List SRecord) : List SRecord := dedupByKey profileKey ∅ l

/-- `ResultAggregator._deduplicate_accounts`. -/
def deduplicate_accounts (l : List SRecord) : List SRecord := dedupByKey accountKey ∅ l

/-- The report of `get_aggregated_results()`: the `summary` counts, the
`data` section (sorted scalar lists, deduplicated profiles and
accounts, breaches as stored), and the literal `sources` pairs; the
`confidence` dict is exposed through `confidenceAt`. -/
structure Report where
  total_emails : Nat
  total_usernames : Nat
  total_domains : Nat
  total_subdomains : Nat
  total_phone_numbers : Nat
  total_urls : Nat
  total_social_profiles : Nat
  total_accounts : Nat
  total_breaches : Nat
  emails : List String
  usernames : List String
  domains : List String
  subdomains : List String
  phone_numbers : List String
  urls : List String
  social_profiles : List SRecord
  accounts : List SRecord
  breaches : List SRecord
  sources : List (String × String)
deriving DecidableEq

/-- `ResultAggregator.get_aggregated_results`. -/
def get_aggregated_results (st : AggState) : Report :=
  ⟨st.emails.card, st.usernames.card, st.domains.card, st.subdomains.card,
   st.phone_numbers.card, st.urls.card,
   st.social_profiles.length, st.accounts.length, st.breaches.length,
   Finset.sort (· ≤ ·) st.emails, Finset.sort (· ≤ ·) st.usernames,
   Finset.sort (· ≤ ·) st.domains, Finset.sort (· ≤ ·) st.subdomains,
   Finset.sort (· ≤ ·) st.phone_numbers, Finset.sort (· ≤ ·) st.urls,
   deduplicate_profiles st.social_profiles,
   deduplicate_accounts st.accounts,
   st.breaches,
   st.sources⟩

/-! ### Orchestrator embedding (`src/core/orchestrator.py`)

`execute_workflow` iterates workflow steps, calls `_run_plugin` inside a
`try/except`, records the result (or a `{'status': 'failed', 'error':
str(e)}` dict) under the plugin's name, then builds the summary with
`_generate_summary`.  A collector invocation is opaque at this
boundary: its observable outcome is either a returned result dict or a
raised exception message (including the `ValueError` for an unknown
plugin, which the same handler catches).  Timestamps, progress
rendering, saving to disk and terminal display are side effects without
influence on the returned dictionary and are not modelled. -/

/-- A value of the generic findings dict at the orchestrator boundary:
a bare string (appended) or a list of strings (extended). -/
inductive FVal where
  | one (v : String)
  | many (vs : List String)
deriving DecidableEq

/-- The strings an `FVal` contributes to `summary['findings'][key]`. -/
def fvals : FVal → List String
  | .one v => [v]
  | .many vs => vs

/-- A plugin result dict as the orchestrator sees it: `status`,
optional `error`, and a generic findings dict in insertion order. -/
structure OResult where
  status : String
  error : Option String
  findings : List (String × FVal)
deriving DecidableEq

/-- Observable outcome of one collector invocation. -/
inductive StepBehavior where
  | ok (res : OResult)
  | raises (msg : String)

/-- `results['summary']` as built by `_generate_summary`. -/
structure Summary where
  total_plugins : Nat
  successful : Nat
  failed : Nat
  findings : List (String × List String)
  highlights : List String
deriving DecidableEq

/-- The observable part of the `results` dict `execute_workflow`
returns: the target, the per-plugin result map in insertion order, and
the summary. -/
structure RunResult where
  target : String
  plugins : List (String × OResult)
  summary : Summary
deriving DecidableEq

/-- Dict assignment `d[k] = v` on an insertion-ordered dict: overwrite
in place if the key exists, else append. -/
def dictSet (k : String) (v : α) : List (String × α) → List (String × α)
  | [] => [(k, v)]
  | (k', v') :: rest => if k' = k then (k, v) :: rest else (k', v') :: dictSet k v rest

/-- Dict lookup `d.get(k)`. -/
def dictGet (k : String) : List (String × α) → Option α
  | [] => none
  | (k', v) :: rest => if k' = k then some v else dictGet k rest

/-- One `findings.items()` iteration of `_generate_summary`: create the
key with `[]` when absent, then extend/append the value. -/
def addFinding (acc : List (String × List String)) (kv : String × FVal) :
    List (String × List String) :=
  dictSet kv.1 ((dictGet kv.1 acc).getD [] ++ fvals kv.2) acc

/-- `PhineasOrchestrator._generate_summary`: count successes and
failures, merge the findings of successful plugins, then build the
highlight lines (Python truthiness of `.get(key)`: present and
non-empty; `len(set(...))` is the deduplicated length, except breaches
which are counted raw). -/
def generate_summary (plugins : List (String × OResult)) : Summary :=
  let acc := plugins.foldl
    (fun (acc : Nat × Nat × List (String × List String)) pr =>
      if pr.2.status = "success" then
        (acc.1 + 1, acc.2.1, pr.2.findings.foldl addFinding acc.2.2)
      else
        (acc.1, acc.2.1 + 1, acc.2.2))
    (0, 0, [])
  let f := acc.2.2
  let hl :=
    (if (dictGet "emails" f).getD [] ≠ [] then
      [toString ((dictGet "emails" f).getD []).dedup.length ++ " unique email(s) discovered"]
     else [])
    ++ (if (dictGet "usernames" f).getD [] ≠ [] then
      [toString ((dictGet "usernames" f).getD []).dedup.length ++ " social media profile(s) found"]
     else [])
    ++ (if (dictGet "subdomains" f).getD [] ≠ [] then
      [toString ((dictGet "subdomains" f).getD []).dedup.length ++ " subdomain(s) enumerated"]
     else [])
    ++ (if (dictGet "breaches" f).getD [] ≠ [] then
      [toString ((dictGet "breaches" f).getD []).length ++ " data breach(es) identified"]
     else [])
    ++ (if (dictGet "accounts" f).getD [] ≠ [] then
      [toString ((dictGet "accounts" f).getD []).dedup.length ++ " online account(s) discovered"]
     else [])
  ⟨plugins.length, acc.1, acc.2.1, f, hl⟩

/-- `PhineasOrchestrator.execute_workflow` over the step list: each
step's outcome is recorded under the plugin name; a raised exception is
caught at the step boundary and recorded as
`{'status': 'failed', 'error': str(e)}` (no findings key), and the loop
continues with the next step.  There is no validation of the step
list: an empty list simply produces a run with no plugin entries. -/
def execute_workflow (target : String) (steps : List (String × StepBehavior)) : RunResult :=
  let plugins := steps.foldl
    (fun acc st =>
      match st.2 with
      | .ok res => dictSet st.1 res acc
      | .raises msg => dictSet st.1 ⟨"failed", some msg, []⟩ acc)
    []
  ⟨target, plugins, generate_summary plugins⟩

/-! ### Per-result contributions (used to analyse aggregation order) -/

/-- The set of normalized values one (plugin, result) pair contributes
to a scalar kind's set. -/
def contribScalar (get : Findings → Option SVal) (norm : String → String)
    (pr : String × PluginResult) : Finset String :=
  ((valsOf (get (pr.2.findings.getD noFindings))).map norm).toFinset

/-- The (key, plugin) pairs one (plugin, result) pair appends to
`sources`. -/
def contribSources (pr : String × PluginResult) : List (String × String) :=
  let f := pr.2.findings.getD noFindings
  (valsOf f.emails).map (fun v => ("email:" ++ v, pr.1))
    ++ (valsOf f.usernames).map (fun v => ("username:" ++ v, pr.1))
    ++ (valsOf f.domains).map (fun v => ("domain:" ++ v, pr.1))
    ++ (valsOf f.subdomains).map (fun v => ("subdomain:" ++ v, pr.1))
    ++ (valsOf f.phone_numbers).map (fun v => ("phone:" ++ v, pr.1))

/-! ### Concrete inputs used in scenario theorems and counterexamples -/

/-- A result whose findings hold a single scalar value of one kind. -/
def emailsRes (v : String) : PluginResult :=
  ⟨"success", none, some ⟨some (.one v), none, none, none, none, none, none, none, none⟩⟩

def usernamesRes (v : String) : PluginResult :=
  ⟨"success", none, some ⟨none, some (.one v), none, none, none, none, none, none, none⟩⟩

def domainsRes (v : String) : PluginResult :=
  ⟨"success", none, some ⟨none, none, some (.one v), none, none, none, none, none, none⟩⟩

def subdomainsRes (v : String) : PluginResult :=
  ⟨"success", none, some ⟨none, none, none, some (.one v), none, none, none, none, none⟩⟩

def phonesRes (v : String) : PluginResult :=
  ⟨"success", none, some ⟨none, none, none, none, some (.one v), none, none, none, none⟩⟩

def urlsRes (v : String) : PluginResult :=
  ⟨"success", none, some ⟨none, none, none, none, none, some (.one v), none, none, none⟩⟩

/-- A result whose findings hold a list of urls. -/
def urlsListRes (vs : List String) : PluginResult :=
  ⟨"success", none, some ⟨none, none, none, none, none, some (.many vs), none, none, none⟩⟩

/-- The spec scenario: `emailCollector` reports `USER@Example.com`. -/
def scenarioEmailRes : PluginResult := emailsRes "USER@Example.com"

/-- The spec scenario: `socialCollector` reports `user@example.com`
plus a social profile. -/
def scenarioSocialRes : PluginResult :=
  ⟨"success", none, some ⟨some (.one "user@example.com"), none, none, none, none, none,
    some (.one ⟨some "x", some "https://x.com/user", some "user", none, none, none⟩),
    none, none⟩⟩

/-- Aggregator state after the spec scenario's two collector results. -/
def scenarioState : AggState :=
  runAgg [("emailCollector", scenarioEmailRes), ("socialCollector", scenarioSocialRes)]

/-- Two one-profile results with distinct dedup keys. -/
def profResA : PluginResult :=
  ⟨"success", none, some ⟨none, none, none, none, none, none,
    some (.one ⟨some "x", some "https://x.com/a", none, none, none, none⟩), none, none⟩⟩

def profResB : PluginResult :=
  ⟨"success", none, some ⟨none, none, none, none, none, none,
    some (.one ⟨some "y", some "https://y.com/b", none, none, none, none⟩), none, none⟩⟩

/-- A result carrying the same breach record twice. -/
def dupBreachRes : PluginResult :=
  ⟨"success", none, some ⟨none, none, none, none, none, none, none, none,
    some (.many [⟨some "bp", none, none, none, none, none⟩,
                 ⟨some "bp", none, none, none, none, none⟩])⟩⟩

/-- A result carrying a single unstamped social profile. -/
def oneProfileRes : PluginResult :=
  ⟨"success", none, some ⟨none, none, none, none, none, none,
    some (.one ⟨some "x", some "u", none, none, none, none⟩), none, none⟩⟩

/-- State with the same e-mail reported by two distinct collectors. -/
def twoCollectorState : AggState :=
  runAgg [("colX", emailsRes "e@x.com"), ("colY", emailsRes "e@x.com")]

/-! ## Theorems -/

/-- Membership in a key's source list is membership of the (key, name)
pair in the append sequence. -/
theorem mem_sourcesAt (st : AggState) (k n : String) :
    n ∈ sourcesAt st k ↔ (k, n) ∈ st.sources := by
  unfold sourcesAt
  constructor
  · intro h
    rcases List.mem_map.mp h with ⟨⟨a, b⟩, hmem, hb⟩
    rcases List.mem_filter.mp hmem with ⟨hin, hk⟩
    have ha : a = k := by simpa using hk
    have hb' : b = n := hb
    rw [← ha, ← hb']
    exact hin
  · intro h
    exact List.mem_map.mpr ⟨(k, n), List.mem_filter.mpr ⟨h, by simp⟩, rfl⟩

/-- **C1.** Running the spec's scenario through `add_result` twice: the
aggregated e-mail set is the normalized singleton as the spec expects,
but `sources` is keyed by the *raw* value, so the key
`email:user@example.com` records only `socialCollector` (the
`emailCollector` report sits under `email:USER@Example.com`), and the
confidence computed for that key is 50, not the 75 the claim states. -/
theorem c1_scenario_raw_source_keys :
    scenarioState.emails = {"user@example.com"} ∧
    scenarioState.emails.card = 1 ∧
    sourcesAt scenarioState "email:user@example.com" = ["socialCollector"] ∧
    sourcesAt scenarioState "email:USER@Example.com" = ["emailCollector"] ∧
    distinctSources scenarioState "email:user@example.com" = 1 ∧
    confidenceAt scenarioState "email:user@example.com" = some 50 := by
  decide

/-- **C3.** Confidence scoring: every key present in the source index
gets the three-tier score of its distinct-source count; the score is
always one of 50, 75, 100; the tier function is monotone and takes
exactly the stated value on each tier. -/
theorem c3_confidence_tiers :
    (∀ (st : AggState) (k : String) (c : Nat), confidenceAt st k = some c →
        c = score (distinctSources st k) ∧ (c = 50 ∨ c = 75 ∨ c = 100)) ∧
    (∀ m n : Nat, m ≤ n → score m ≤ score n) ∧
    (∀ n : Nat, (3 ≤ n → score n = 100) ∧ (n = 2 → score n = 75) ∧
        (n ≤ 1 → score n = 50)) := by
  refine ⟨?_, ?_, ?_⟩
  · intro st k c h
    unfold confidenceAt at h
    split at h
    · exact absurd h (by simp)
    · have hc : c = score (distinctSources st k) := by
        injection h with h'
        exact h'.symm
      refine ⟨hc, ?_⟩
      rw [hc]
      unfold score
      split_ifs <;> simp
  · intro m n h
    unfold score
    split_ifs <;> omega
  · intro n
    unfold score
    refine ⟨?_, ?_, ?_⟩ <;> intro h <;> split_ifs <;> omega

/-- Witness for `c3_confidence_tiers` at concrete inputs: the state in
which two distinct collectors reported `e@x.com` scores 75, and each
tier takes its literal value. -/
theorem c3_confidence_tiers_witness :
    (75 = score (distinctSources twoCollectorState "email:e@x.com") ∧
      (75 = 50 ∨ 75 = 75 ∨ 75 = 100)) ∧
    score 1 ≤ score 2 ∧ score 4 = 100 ∧ score 2 = 75 ∧ score 0 = 50 :=
  ⟨c3_confidence_tiers.1 twoCollectorState "email:e@x.com" 75 (by decide),
   c3_confidence_tiers.2.1 1 2 (by decide),
   (c3_confidence_tiers.2.2 4).1 (by decide),
   (c3_confidence_tiers.2.2 2).2.1 (by decide),
   (c3_confidence_tiers.2.2 0).2.2 (by decide)⟩

/-- **C10.** `add_result` never inspects `status` (or `error`): two
results with the same findings but arbitrary differing status and
error fields produce identical aggregated sets, structured lists and
source index. -/
theorem c10_status_not_inspected (st : AggState) (plugin : String)
    (f : Option Findings) (s₁ s₂ : String) (e₁ e₂ : Option String) :
    (add_result st plugin ⟨s₁, e₁, f⟩).1.emails = (add_result st plugin ⟨s₂, e₂, f⟩).1.emails ∧
    (add_result st plugin ⟨s₁, e₁, f⟩).1.usernames = (add_result st plugin ⟨s₂, e₂, f⟩).1.usernames ∧
    (add_result st plugin ⟨s₁, e₁, f⟩).1.domains = (add_result st plugin ⟨s₂, e₂, f⟩).1.domains ∧
    (add_result st plugin ⟨s₁, e₁, f⟩).1.subdomains = (add_result st plugin ⟨s₂, e₂, f⟩).1.subdomains ∧
    (add_result st plugin ⟨s₁, e₁, f⟩).1.phone_numbers = (add_result st plugin ⟨s₂, e₂, f⟩).1.phone_numbers ∧
    (add_result st plugin ⟨s₁, e₁, f⟩).1.urls = (add_result st plugin ⟨s₂, e₂, f⟩).1.urls ∧
    (add_result st plugin ⟨s₁, e₁, f⟩).1.social_profiles = (add_result st plugin ⟨s₂, e₂, f⟩).1.social_profiles ∧
    (add_result st plugin ⟨s₁, e₁, f⟩).1.accounts = (add_result st plugin ⟨s₂, e₂, f⟩).1.accounts ∧
    (add_result st plugin ⟨s₁, e₁, f⟩).1.breaches = (add_result st plugin ⟨s₂, e₂, f⟩).1.breaches ∧
    (add_result st plugin ⟨s₁, e₁, f⟩).1.sources = (add_result st plugin ⟨s₂, e₂, f⟩).1.sources :=
  ⟨rfl, rfl, rfl, rfl, rfl, rfl, rfl, rfl, rfl, rfl⟩

/-- **C8 (counterexample).** `execute_workflow` on an empty step list
does produce a sealed run — with an empty plugin map and zero summary
counts — rather than failing: the source performs no workflow
validation at all. -/
theorem c8_counterexample :
    (execute_workflow "user@example.com" []).plugins = [] ∧
    (execute_workflow "user@example.com" []).summary.total_plugins = 0 ∧
    (execute_workflow "user@example.com" []).summary.highlights = [] := by
  refine ⟨rfl, rfl, ?_⟩
  decide

/-- **C8 (amended).** An empty step list is not rejected: the run
completes normally with no plugin entries, all summary counts zero, no
findings and no highlights, and the target recorded unchanged. -/
theorem c8_empty_workflow_runs (target : String) :
    (execute_workflow target []).plugins = [] ∧
    (execute_workflow target []).summary.total_plugins = 0 ∧
    (execute_workflow target []).summary.successful = 0 ∧
    (execute_workflow target []).summary.failed = 0 ∧
    (execute_workflow target []).summary.findings = [] ∧
    (execute_workflow target []).summary.highlights = [] ∧
    (execute_workflow target []).target = target := by
  refine ⟨rfl, rfl, rfl, rfl, rfl, ?_, rfl⟩
  simp [execute_workflow, generate_summary, dictGet]

/-- **C5 (counterexample).** A url value is accepted into the `urls`
set, yet `add_result` appends nothing to `sources` for it: the key
`url:http://a.com` has no entry (the urls block of the source has no
`self.sources` line). -/
theorem c5_counterexample :
    (add_result initState "colA" (urlsRes "http://a.com")).1.urls = {"http://a.com"} ∧
    (add_result initState "colA" (urlsRes "http://a.com")).1.sources = [] ∧
    sourcesAt (add_result initState "colA" (urlsRes "http://a.com")).1 "url:http://a.com" = [] := by
  decide

/-- **C5 (amended).** For the five scalar kinds emails, usernames,
domains, subdomains and phone numbers, every accepted value gains a
source-index entry `kind:value` carrying the collector's name; url
values gain no source-index entry (a urls-only result leaves `sources`
unchanged). -/
theorem c5_source_index_per_kind (st : AggState) (plugin : String) (r : PluginResult) :
    (∀ v ∈ valsOf ((r.findings.getD noFindings).emails),
        plugin ∈ sourcesAt (add_result st plugin r).1 ("email:" ++ v)) ∧
    (∀ v ∈ valsOf ((r.findings.getD noFindings).usernames),
        plugin ∈ sourcesAt (add_result st plugin r).1 ("username:" ++ v)) ∧
    (∀ v ∈ valsOf ((r.findings.getD noFindings).domains),
        plugin ∈ sourcesAt (add_result st plugin r).1 ("domain:" ++ v)) ∧
    (∀ v ∈ valsOf ((r.findings.getD noFindings).subdomains),
        plugin ∈ sourcesAt (add_result st plugin r).1 ("subdomain:" ++ v)) ∧
    (∀ v ∈ valsOf ((r.findings.getD noFindings).phone_numbers),
        plugin ∈ sourcesAt (add_result st plugin r).1 ("phone:" ++ v)) ∧
    (∀ vs : List String, (add_result st plugin (urlsListRes vs)).1.sources = st.sources) := by
  refine ⟨?_, ?_, ?_, ?_, ?_, ?_⟩
  · intro v hv
    refine (mem_sourcesAt _ _ _).mpr ?_
    simp only [add_result, List.mem_append, List.mem_map]
    exact Or.inl (Or.inl (Or.inl (Or.inl (Or.inr ⟨v, hv, rfl⟩))))
  · intro v hv
    refine (mem_sourcesAt _ _ _).mpr ?_
    simp only [add_result, List.mem_append, List.mem_map]
    exact Or.inl (Or.inl (Or.inl (Or.inr ⟨v, hv, rfl⟩)))
  · intro v hv
    refine (mem_sourcesAt _ _ _).mpr ?_
    simp only [add_result, List.mem_append, List.mem_map]
    exact Or.inl (Or.inl (Or.inr ⟨v, hv, rfl⟩))
  · intro v hv
    refine (mem_sourcesAt _ _ _).mpr ?_
    simp only [add_result, List.mem_append, List.mem_map]
    exact Or.inl (Or.inr ⟨v, hv, rfl⟩)
  · intro v hv
    refine (mem_sourcesAt _ _ _).mpr ?_
    simp only [add_result, List.mem_append, List.mem_map]
    exact Or.inr ⟨v, hv, rfl⟩
  · intro vs
    simp [add_result, urlsListRes, valsOf, noFindings]

/-- Witness for `c5_source_index_per_kind`: a single reported e-mail
creates its source-index entry; a urls-only result leaves `sources`
untouched. -/
theorem c5_source_index_per_kind_witness :
    "colA" ∈ sourcesAt (add_result initState "colA" (emailsRes "a@b.c")).1 ("email:" ++ "a@b.c") ∧
    (add_result initState "colA" (urlsListRes ["http://u"])).1.sources = initState.sources :=
  ⟨(c5_source_index_per_kind initState "colA" (emailsRes "a@b.c")).1 "a@b.c" (by decide),
   (c5_source_index_per_kind initState "colA" (emailsRes "a@b.c")).2.2.2.2.2 ["http://u"]⟩

/-- **C7 (counterexample).** Two username findings differing only in
letter casing produce a two-element set: usernames are only stripped,
not lower-cased. -/
theorem c7_counterexample :
    (add_result (add_result initState "c1" (usernamesRes "Bob")).1
        "c2" (usernamesRes "bob")).1.usernames = {"Bob", "bob"} ∧
    (add_result (add_result initState "c1" (usernamesRes "Bob")).1
        "c2" (usernamesRes "bob")).1.usernames.card = 2 := by
  decide

/-- **C7 (amended).** Adding the same scalar value twice yields a
singleton set, where "same" means equal after the kind's normalization:
`lower().strip()` for emails, domains and subdomains, and `strip()`
only (whitespace, not casing) for usernames, phone numbers and urls. -/
theorem c7_idempotent_insertion (v w : String) :
    (pyStrip (pyLower v) = pyStrip (pyLower w) →
      (add_result (add_result initState "c1" (emailsRes v)).1
          "c2" (emailsRes w)).1.emails = {pyStrip (pyLower v)}) ∧
    (pyStrip v = pyStrip w →
      (add_result (add_result initState "c1" (usernamesRes v)).1
          "c2" (usernamesRes w)).1.usernames = {pyStrip v}) ∧
    (pyStrip (pyLower v) = pyStrip (pyLower w) →
      (add_result (add_result initState "c1" (domainsRes v)).1
          "c2" (domainsRes w)).1.domains = {pyStrip (pyLower v)}) ∧
    (pyStrip (pyLower v) = pyStrip (pyLower w) →
      (add_result (add_result initState "c1" (subdomainsRes v)).1
          "c2" (subdomainsRes w)).1.subdomains = {pyStrip (pyLower v)}) ∧
    (pyStrip v = pyStrip w →
      (add_result (add_result initState "c1" (phonesRes v)).1
          "c2" (phonesRes w)).1.phone_numbers = {pyStrip v}) ∧
    (pyStrip v = pyStrip w →
      (add_result (add_result initState "c1" (urlsRes v)).1
          "c2" (urlsRes w)).1.urls = {pyStrip v}) := by
  refine ⟨?_, ?_, ?_, ?_, ?_, ?_⟩ <;> intro h <;>
    simp [add_result, emailsRes, usernamesRes, domainsRes, subdomainsRes, phonesRes,
      urlsRes, valsOf, noFindings, initState, h]

/-- Witness for `c7_idempotent_insertion` at concrete values. -/
theorem c7_idempotent_insertion_witness :
    (add_result (add_result initState "c1" (emailsRes " A@B.com")).1
        "c2" (emailsRes "a@b.com ")).1.emails = {pyStrip (pyLower " A@B.com")} ∧
    (add_result (add_result initState "c1" (usernamesRes " bob")).1
        "c2" (usernamesRes "bob ")).1.usernames = {pyStrip " bob"} ∧
    (add_result (add_result initState "c1" (domainsRes " X.com")).1
        "c2" (domainsRes "x.com ")).1.domains = {pyStrip (pyLower " X.com")} ∧
    (add_result (add_result initState "c1" (subdomainsRes " A.X.com")).1
        "c2" (subdomainsRes "a.x.com ")).1.subdomains = {pyStrip (pyLower " A.X.com")} ∧
    (add_result (add_result initState "c1" (phonesRes " 123")).1
        "c2" (phonesRes "123 ")).1.phone_numbers = {pyStrip " 123"} ∧
    (add_result (add_result initState "c1" (urlsRes " http://u")).1
        "c2" (urlsRes "http://u ")).1.urls = {pyStrip " http://u"} :=
  ⟨(c7_idempotent_insertion " A@B.com" "a@b.com ").1 (by decide),
   (c7_idempotent_insertion " bob" "bob ").2.1 (by decide),
   (c7_idempotent_insertion " X.com" "x.com ").2.2.1 (by decide),
   (c7_idempotent_insertion " A.X.com" "a.x.com ").2.2.2.1 (by decide),
   (c7_idempotent_insertion " 123" "123 ").2.2.2.2.1 (by decide),
   (c7_idempotent_insertion " http://u" "http://u ").2.2.2.2.2 (by decide)⟩

/-- **C9 (counterexample).** `add_result` hands back its input result
with the social profile's `source` field overwritten: the input is
mutated (`profile['source'] = plugin_name` acts on the caller's dict). -/
theorem c9_counterexample :
    (add_result initState "colA" oneProfileRes).2 ≠ oneProfileRes := by
  decide

/-- **C9 (amended).** `add_result` leaves status, error and all scalar
findings of its input unchanged but mutates the structured records in
place, setting each dict record's `source` to the collector name (bare
string accounts are not touched); a result with no structured records
is returned entirely unchanged. -/
theorem c9_input_mutation (st : AggState) (plugin : String) (r : PluginResult) :
    ((add_result st plugin r).2.status = r.status ∧
     (add_result st plugin r).2.error = r.error ∧
     (add_result st plugin r).2.findings.map Findings.emails = r.findings.map Findings.emails ∧
     (add_result st plugin r).2.findings.map Findings.usernames = r.findings.map Findings.usernames ∧
     (add_result st plugin r).2.findings.map Findings.domains = r.findings.map Findings.domains ∧
     (add_result st plugin r).2.findings.map Findings.subdomains = r.findings.map Findings.subdomains ∧
     (add_result st plugin r).2.findings.map Findings.phone_numbers = r.findings.map Findings.phone_numbers ∧
     (add_result st plugin r).2.findings.map Findings.urls = r.findings.map Findings.urls ∧
     (add_result st plugin r).2.findings.map Findings.social_profiles
        = r.findings.map (fun f => mapRVal (setSource plugin) f.social_profiles) ∧
     (add_result st plugin r).2.findings.map Findings.accounts
        = r.findings.map (fun f => mapAVal (stampAEntry plugin) f.accounts) ∧
     (add_result st plugin r).2.findings.map Findings.breaches
        = r.findings.map (fun f => mapRVal (setSource plugin) f.breaches)) ∧
    (r.findings = none → (add_result st plugin r).2 = r) ∧
    (∀ f, r.findings = some f → f.social_profiles = none → f.accounts = none →
        f.breaches = none → (add_result st plugin r).2 = r) := by
  refine ⟨?_, ?_, ?_⟩
  · rcases r with ⟨s, e, fo⟩
    cases fo <;> exact ⟨rfl, rfl, rfl, rfl, rfl, rfl, rfl, rfl, rfl, rfl, rfl⟩
  · intro h
    rcases r with ⟨s, e, fo⟩
    cases h
    rfl
  · intro f hf h1 h2 h3
    rcases r with ⟨s, e, fo⟩
    cases hf
    obtain ⟨a, b, c, d, e', u, sp, ac, br⟩ := f
    dsimp only at h1 h2 h3
    subst h1
    subst h2
    subst h3
    rfl

/-- Witness for `c9_input_mutation`: a findings-free failed result and
a scalar-only result pass through `add_result` unchanged. -/
theorem c9_input_mutation_witness :
    (add_result initState "p" (PluginResult.mk "failed" (some "boom") none)).2
      = PluginResult.mk "failed" (some "boom") none ∧
    (add_result initState "p" (emailsRes "a@b.c")).2 = emailsRes "a@b.c" :=
  ⟨(c9_input_mutation initState "p" ⟨"failed", some "boom", none⟩).2.1 rfl,
   (c9_input_mutation initState "p" (emailsRes "a@b.c")).2.2
     ⟨some (.one "a@b.c"), none, none, none, none, none, none, none, none⟩ rfl rfl rfl rfl⟩

/-- **C4.** Failure containment: in a three-step workflow where A and C
return successful results and B raises, the sealed run has entries for
all three steps — B recorded as `failed` with the exception's message,
A and C as `success` — and the summary counts two successes and one
failure and aggregates A's and C's findings (their e-mail lists
concatenated in step order). -/
theorem c4_failure_containment (target msg : String) (esA esC : List String) :
    (execute_workflow target
        [("A", .ok ⟨"success", none, [("emails", .many esA)]⟩),
         ("B", .raises msg),
         ("C", .ok ⟨"success", none, [("emails", .many esC)]⟩)]).plugins
      = [("A", ⟨"success", none, [("emails", .many esA)]⟩),
         ("B", ⟨"failed", some msg, []⟩),
         ("C", ⟨"success", none, [("emails", .many esC)]⟩)] ∧
    dictGet "B" (execute_workflow target
        [("A", .ok ⟨"success", none, [("emails", .many esA)]⟩),
         ("B", .raises msg),
         ("C", .ok ⟨"success", none, [("emails", .many esC)]⟩)]).plugins
      = some ⟨"failed", some msg, []⟩ ∧
    (execute_workflow target
        [("A", .ok ⟨"success", none, [("emails", .many esA)]⟩),
         ("B", .raises msg),
         ("C", .ok ⟨"success", none, [("emails", .many esC)]⟩)]).summary.total_plugins = 3 ∧
    (execute_workflow target
        [("A", .ok ⟨"success", none, [("emails", .many esA)]⟩),
         ("B", .raises msg),
         ("C", .ok ⟨"success", none, [("emails", .many esC)]⟩)]).summary.successful = 2 ∧
    (execute_workflow target
        [("A", .ok ⟨"success", none, [("emails", .many esA)]⟩),
         ("B", .raises msg),
         ("C", .ok ⟨"success", none, [("emails", .many esC)]⟩)]).summary.failed = 1 ∧
    dictGet "emails" (execute_workflow target
        [("A", .ok ⟨"success", none, [("emails", .many esA)]⟩),
         ("B", .raises msg),
         ("C", .ok ⟨"success", none, [("emails", .many esC)]⟩)]).summary.findings
      = some (esA ++ esC) := by
  refine ⟨?_, ?_, ?_, ?_, ?_, ?_⟩ <;>
    simp [execute_workflow, generate_summary, dictSet, dictGet, addFinding, fvals]

/-! ### Order (in)dependence of aggregation -/

/-- One step extends the e-mail set by the result's contribution. -/
theorem emails_stepAgg : ∀ (st : AggState) (x : String × PluginResult),
    (stepAgg st x).emails
      = st.emails ∪ contribScalar Findings.emails (fun v => pyStrip (pyLower v)) x :=
  fun _ _ => rfl

theorem usernames_stepAgg : ∀ (st : AggState) (x : String × PluginResult),
    (stepAgg st x).usernames = st.usernames ∪ contribScalar Findings.usernames pyStrip x :=
  fun _ _ => rfl

theorem domains_stepAgg : ∀ (st : AggState) (x : String × PluginResult),
    (stepAgg st x).domains
      = st.domains ∪ contribScalar Findings.domains (fun v => pyStrip (pyLower v)) x :=
  fun _ _ => rfl

theorem subdomains_stepAgg : ∀ (st : AggState) (x : String × PluginResult),
    (stepAgg st x).subdomains
      = st.subdomains ∪ contribScalar Findings.subdomains (fun v => pyStrip (pyLower v)) x :=
  fun _ _ => rfl

theorem phone_numbers_stepAgg : ∀ (st : AggState) (x : String × PluginResult),
    (stepAgg st x).phone_numbers
      = st.phone_numbers ∪ contribScalar Findings.phone_numbers pyStrip x :=
  fun _ _ => rfl

theorem urls_stepAgg : ∀ (st : AggState) (x : String × PluginResult),
    (stepAgg st x).urls = st.urls ∪ contribScalar Findings.urls pyStrip x :=
  fun _ _ => rfl

/-- A set-valued projection that grows by a per-result contribution at
each step evaluates, over a fold, to the supremum of the contributions
of the input multiset. -/
theorem proj_foldl (f : AggState → Finset String) (g : String × PluginResult → Finset String)
    (hf : ∀ st x, f (stepAgg st x) = f st ∪ g x) :
    ∀ (l : List (String × PluginResult)) (st : AggState),
      f (l.foldl stepAgg st)
        = f st ∪ (Multiset.map g (↑l : Multiset (String × PluginResult))).sup := by
  intro l
  induction l with
  | nil => intro st; simp
  | cons x xs ih =>
      intro st
      rw [List.foldl_cons, ih, hf]
      rw [← Multiset.cons_coe, Multiset.map_cons, Multiset.sup_cons]
      rw [Finset.sup_eq_union, Finset.union_assoc]

/-- The fold of a growing set-valued projection is invariant under
permutation of the input list. -/
theorem scalar_proj_perm (f : AggState → Finset String)
    (g : String × PluginResult → Finset String)
    (hf : ∀ st x, f (stepAgg st x) = f st ∪ g x)
    (l₁ l₂ : List (String × PluginResult)) (h : l₁.Perm l₂) :
    f (runAgg l₁) = f (runAgg l₂) := by
  unfold runAgg
  rw [proj_foldl f g hf l₁ initState, proj_foldl f g hf l₂ initState,
    show ((↑l₁ : Multiset (String × PluginResult)) = ↑l₂) from Multiset.coe_eq_coe.mpr h]

/-- One step appends the result's (key, plugin) chunk to `sources`. -/
theorem sources_stepAgg (st : AggState) (x : String × PluginResult) :
    (stepAgg st x).sources = st.sources ++ contribSources x := by
  simp [stepAgg, add_result, contribSources, List.append_assoc]

/-- Over a fold, `sources` is the initial list followed by the
concatenated per-result chunks in processing order. -/
theorem sources_foldl : ∀ (l : List (String × PluginResult)) (st : AggState),
    (l.foldl stepAgg st).sources = st.sources ++ (l.map contribSources).flatten := by
  intro l
  induction l with
  | nil => intro st; simp
  | cons x xs ih =>
      intro st
      rw [List.foldl_cons, ih, sources_stepAgg]
      simp [List.append_assoc]

/-- Flattening lists of lists sends permuted inputs to permuted
outputs. -/
theorem perm_flatten {α : Type _} {l₁ l₂ : List (List α)} (h : l₁.Perm l₂) :
    l₁.flatten.Perm l₂.flatten := by
  induction h with
  | nil => exact List.Perm.refl _
  | cons x _ ih => simpa using ih.append_left x
  | swap x y l =>
      simp only [List.flatten_cons]
      rw [← List.append_assoc, ← List.append_assoc]
      exact (@List.perm_append_comm _ y x).append_right _
  | trans _ _ ih₁ ih₂ => exact ih₁.trans ih₂

/-- Feeding a permuted input list yields a permuted `sources` list. -/
theorem sources_runAgg_perm {l₁ l₂ : List (String × PluginResult)} (h : l₁.Perm l₂) :
    (runAgg l₁).sources.Perm (runAgg l₂).sources := by
  unfold runAgg
  rw [sources_foldl, sources_foldl]
  exact perm_flatten (h.map contribSources)

/-- Per-key source lists of permuted inputs are permutations. -/
theorem sourcesAt_perm {l₁ l₂ : List (String × PluginResult)} (h : l₁.Perm l₂) (k : String) :
    (sourcesAt (runAgg l₁) k).Perm (sourcesAt (runAgg l₂) k) :=
  ((sources_runAgg_perm h).filter _).map _

/-- Per-key confidence of permuted inputs coincides. -/
theorem confidenceAt_perm {l₁ l₂ : List (String × PluginResult)} (h : l₁.Perm l₂) (k : String) :
    confidenceAt (runAgg l₁) k = confidenceAt (runAgg l₂) k := by
  have hp := sourcesAt_perm h k
  unfold confidenceAt distinctSources
  by_cases h1 : sourcesAt (runAgg l₁) k = []
  · have h2 : sourcesAt (runAgg l₂) k = [] := by
      rw [h1] at hp
      exact hp.symm.eq_nil
    rw [if_pos h1, if_pos h2]
  · have h2 : ¬ sourcesAt (runAgg l₂) k = [] := fun hh => by
      rw [hh] at hp
      exact h1 hp.eq_nil
    rw [if_neg h1, if_neg h2, (hp.dedup).length_eq]

/-- **C2 (counterexample).** Feeding the two one-profile results in the
two possible orders produces different `data` sections: the
deduplicated social-profile lists of the two reports differ (in
ordering), although the inputs are permutations of each other. -/
theorem c2_counterexample :
    ([("p1", profResA), ("p2", profResB)]).Perm [("p2", profResB), ("p1", profResA)] ∧
    (get_aggregated_results (runAgg [("p1", profResA), ("p2", profResB)])).social_profiles ≠
      (get_aggregated_results (runAgg [("p2", profResB), ("p1", profResA)])).social_profiles := by
  constructor
  · decide
  · decide

/-- **C2 (amended).** For permuted collector-result lists, the six
scalar kinds' data lists coincide; each key's `sources` attribution
list is a permutation of the other run's (same membership), and each
key's confidence coincides.  (The structured kinds' deduplicated lists
may differ in internal ordering, per the counterexample.) -/
theorem c2_order_independence (l₁ l₂ : List (String × PluginResult)) (h : l₁.Perm l₂) :
    (get_aggregated_results (runAgg l₁)).emails = (get_aggregated_results (runAgg l₂)).emails ∧
    (get_aggregated_results (runAgg l₁)).usernames = (get_aggregated_results (runAgg l₂)).usernames ∧
    (get_aggregated_results (runAgg l₁)).domains = (get_aggregated_results (runAgg l₂)).domains ∧
    (get_aggregated_results (runAgg l₁)).subdomains = (get_aggregated_results (runAgg l₂)).subdomains ∧
    (get_aggregated_results (runAgg l₁)).phone_numbers = (get_aggregated_results (runAgg l₂)).phone_numbers ∧
    (get_aggregated_results (runAgg l₁)).urls = (get_aggregated_results (runAgg l₂)).urls ∧
    (∀ k : String, (sourcesAt (runAgg l₁) k).Perm (sourcesAt (runAgg l₂) k)) ∧
    (∀ k n : String, n ∈ sourcesAt (runAgg l₁) k ↔ n ∈ sourcesAt (runAgg l₂) k) ∧
    (∀ k : String, confidenceAt (runAgg l₁) k = confidenceAt (runAgg l₂) k) := by
  have he := scalar_proj_perm AggState.emails
    (contribScalar Findings.emails fun v => pyStrip (pyLower v)) emails_stepAgg l₁ l₂ h
  have hu := scalar_proj_perm AggState.usernames
    (contribScalar Findings.usernames pyStrip) usernames_stepAgg l₁ l₂ h
  have hd := scalar_proj_perm AggState.domains
    (contribScalar Findings.domains fun v => pyStrip (pyLower v)) domains_stepAgg l₁ l₂ h
  have hs := scalar_proj_perm AggState.subdomains
    (contribScalar Findings.subdomains fun v => pyStrip (pyLower v)) subdomains_stepAgg l₁ l₂ h
  have hp := scalar_proj_perm AggState.phone_numbers
    (contribScalar Findings.phone_numbers pyStrip) phone_numbers_stepAgg l₁ l₂ h
  have hr := scalar_proj_perm AggState.urls
    (contribScalar Findings.urls pyStrip) urls_stepAgg l₁ l₂ h
  refine ⟨?_, ?_, ?_, ?_, ?_, ?_, fun k => sourcesAt_perm h k,
    fun k n => (sourcesAt_perm h k).mem_iff, fun k => confidenceAt_perm h k⟩ <;>
    simp only [get_aggregated_results, he, hu, hd, hs, hp, hr]

/-- Witness for `c2_order_independence` at a concrete permuted pair. -/
theorem c2_order_independence_witness :
    (get_aggregated_results (runAgg [("p1", profResA), ("p2", profResB)])).emails
      = (get_aggregated_results (runAgg [("p2", profResB), ("p1", profResA)])).emails ∧
    confidenceAt (runAgg [("p1", profResA), ("p2", profResB)]) "email:a"
      = confidenceAt (runAgg [("p2", profResB), ("p1", profResA)]) "email:a" :=
  ⟨(c2_order_independence [("p1", profResA), ("p2", profResB)]
      [("p2", profResB), ("p1", profResA)] (by decide)).1,
   (c2_order_independence [("p1", profResA), ("p2", profResB)]
      [("p2", profResB), ("p1", profResA)] (by decide)).2.2.2.2.2.2.2.2 "email:a"⟩

/-! ### Structured-record deduplication -/

/-- The dedup loop returns a sublist of its input (records are kept in
first-seen order, never invented). -/
theorem dedupByKey_sublist (key : SRecord → String) :
    ∀ (l : List SRecord) (seen : Finset String), (dedupByKey key seen l).Sublist l := by
  intro l
  induction l with
  | nil => intro seen; simp [dedupByKey]
  | cons r rs ih =>
      intro seen
      simp only [dedupByKey]
      by_cases h : key r ∈ seen
      · rw [if_pos h]
        exact (ih seen).cons r
      · rw [if_neg h]
        exact (ih _).cons₂ r

/-- Kept records have keys outside `seen`, and their keys are pairwise
distinct. -/
theorem dedupByKey_nodup_aux (key : SRecord → String) :
    ∀ (l : List SRecord) (seen : Finset String),
      (∀ r ∈ dedupByKey key seen l, key r ∉ seen) ∧
      ((dedupByKey key seen l).map key).Nodup := by
  intro l
  induction l with
  | nil => intro seen; exact ⟨by simp [dedupByKey], by simp [dedupByKey]⟩
  | cons r rs ih =>
      intro seen
      simp only [dedupByKey]
      by_cases h : key r ∈ seen
      · rw [if_pos h]
        exact ih seen
      · rw [if_neg h]
        refine ⟨?_, ?_⟩
        · intro x hx
          rcases List.mem_cons.mp hx with hx | hx
          · rw [hx]
            exact h
          · intro hseen
            exact (ih (insert (key r) seen)).1 x hx (Finset.mem_insert_of_mem hseen)
        · rw [List.map_cons]
          refine List.nodup_cons.mpr ⟨?_, (ih _).2⟩
          intro hmem
          rcases List.mem_map.mp hmem with ⟨x, hx, hkx⟩
          exact (ih _).1 x hx (by rw [hkx]; exact Finset.mem_insert_self _ _)

/-- Every input record's key is either pre-seen or represented in the
output. -/
theorem dedupByKey_covers (key : SRecord → String) :
    ∀ (l : List SRecord) (seen : Finset String) (r : SRecord), r ∈ l →
      key r ∈ seen ∨ key r ∈ (dedupByKey key seen l).map key := by
  intro l
  induction l with
  | nil =>
      intro seen r hr
      cases hr
  | cons x xs ih =>
      intro seen r hr
      simp only [dedupByKey]
      by_cases h : key x ∈ seen
      · rw [if_pos h]
        rcases List.mem_cons.mp hr with hr | hr
        · left
          rw [hr]
          exact h
        · exact ih seen r hr
      · rw [if_neg h]
        rcases List.mem_cons.mp hr with hr | hr
        · right
          rw [List.map_cons, hr]
          exact List.mem_cons_self _ _
        · rcases ih (insert (key x) seen) r hr with hc | hc
          · rcases Finset.mem_insert.mp hc with hc | hc
            · right
              rw [List.map_cons, hc]
              exact List.mem_cons_self _ _
            · left
              exact hc
          · right
            rw [List.map_cons]
            exact List.mem_cons_of_mem _ hc

/-- The first record bearing a key is the one kept. -/
theorem dedupByKey_first (key : SRecord → String) :
    ∀ (l₁ : List SRecord) (r : SRecord) (l₂ : List SRecord) (seen : Finset String),
      key r ∉ seen → key r ∉ l₁.map key →
      r ∈ dedupByKey key seen (l₁ ++ r :: l₂) := by
  intro l₁
  induction l₁ with
  | nil =>
      intro r l₂ seen hseen _
      simp only [List.nil_append, dedupByKey]
      rw [if_neg hseen]
      exact List.mem_cons_self _ _
  | cons x xs ih =>
      intro r l₂ seen hseen hkeys
      have hxr : key r ≠ key x := by
        intro hh
        exact hkeys (by rw [List.map_cons, hh]; exact List.mem_cons_self _ _)
      have hkeys' : key r ∉ xs.map key := fun hh =>
        hkeys (by rw [List.map_cons]; exact List.mem_cons_of_mem _ hh)
      simp only [List.cons_append, dedupByKey]
      by_cases h : key x ∈ seen
      · rw [if_pos h]
        exact ih r l₂ seen hseen hkeys'
      · rw [if_neg h]
        refine List.mem_cons_of_mem _ (ih r l₂ (insert (key x) seen) ?_ hkeys')
        intro hh
        rcases Finset.mem_insert.mp hh with hh | hh
        · exact hxr hh
        · exact hseen hh

/-- **C6 (counterexample).** Two identical breach records (hence with
an identical dedup key) both appear in the report: breaches are
returned as stored, with no deduplication at all. -/
theorem c6_counterexample :
    (get_aggregated_results (runAgg [("colA", dupBreachRes)])).breaches
      = [⟨some "bp", none, none, none, none, some "colA"⟩,
         ⟨some "bp", none, none, none, none, some "colA"⟩] := by
  decide

/-- **C6 (amended).** Social profiles and accounts are deduplicated in
the report by their composite key (with `"unknown"` substituted for a
missing platform): the output is a sublist of the input with pairwise
distinct keys, covering every input key, and the record kept for a key
is the first-seen one.  Breach records are returned as stored, without
deduplication. -/
theorem c6_structured_dedup :
    (∀ st : AggState,
        (get_aggregated_results st).social_profiles = deduplicate_profiles st.social_profiles ∧
        (get_aggregated_results st).accounts = deduplicate_accounts st.accounts ∧
        (get_aggregated_results st).breaches = st.breaches) ∧
    (∀ (key : SRecord → String) (l : List SRecord),
        (dedupByKey key ∅ l).Sublist l ∧
        ((dedupByKey key ∅ l).map key).Nodup ∧
        (∀ r ∈ l, key r ∈ (dedupByKey key ∅ l).map key) ∧
        (∀ (l₁ : List SRecord) (r : SRecord) (l₂ : List SRecord),
            l = l₁ ++ r :: l₂ → key r ∉ l₁.map key → r ∈ dedupByKey key ∅ l)) ∧
    (∀ r : SRecord, r.platform = none →
        profileKey r = "unknown" ++ ":" ++ r.url.getD (r.username.getD "") ∧
        accountKey r = "unknown" ++ ":" ++ r.account.getD (r.email.getD "")) := by
  refine ⟨fun st => ⟨rfl, rfl, rfl⟩,
    fun key l => ⟨dedupByKey_sublist key l ∅, (dedupByKey_nodup_aux key l ∅).2, ?_, ?_⟩, ?_⟩
  · intro r hr
    rcases dedupByKey_covers key l ∅ r hr with hc | hc
    · exact absurd hc (Finset.not_mem_empty _)
    · exact hc
  · intro l₁ r l₂ hl hk
    rw [hl]
    exact dedupByKey_first key l₁ r l₂ ∅ (Finset.not_mem_empty _) hk
  · intro r hr
    unfold profileKey accountKey
    rw [hr]
    exact ⟨rfl, rfl⟩

/-- Witness for `c6_structured_dedup`: a platform-less profile keeps
its record under the `"unknown"` key, and an empty state's breaches
pass through. -/
theorem c6_structured_dedup_witness :
    (get_aggregated_results initState).breaches = initState.breaches ∧
    profileKey ⟨none, some "u", none, none, none, none⟩ ∈
      (dedupByKey profileKey ∅ [⟨none, some "u", none, none, none, none⟩]).map profileKey ∧
    (⟨none, some "u", none, none, none, none⟩ : SRecord) ∈
      dedupByKey profileKey ∅ [⟨none, some "u", none, none, none, none⟩] ∧
    profileKey ⟨none, some "u", none, none, none, none⟩
      = "unknown" ++ ":" ++ ((some "u").getD (((none : Option String)).getD "")) :=
  ⟨(c6_structured_dedup.1 initState).2.2,
   (c6_structured_dedup.2.1 profileKey [⟨none, some "u", none, none, none, none⟩]).2.2.1
     ⟨none, some "u", none, none, none, none⟩ (by decide),
   (c6_structured_dedup.2.1 profileKey [⟨none, some "u", none, none, none, none⟩]).2.2.2
     [] ⟨none, some "u", none, none, none, none⟩ [] rfl (by decide),
   (c6_structured_dedup.2.2 ⟨none, some "u", none, none, none, none⟩ rfl).1⟩

end Phineas
